import Mathlib

/-!
# Verification of the nanoclaw event-distribution subsystem

A shallow embedding, in Lean 4, of the parts of the nanoclaw repository that
its specification talks about: the bounded event buffer and fan-out of
`src/dashboard-events.ts` (`DashboardEventEmitter`), the WebSocket transport
of `src/dashboard-server.ts` (history replay on connect, guarded live sends,
unsubscribe on close), and the JID codec of `src/telegram.ts`.

JavaScript strings are modelled as lists of characters, JS numbers holding
integral chat ids as `Int`, arrays as lists, and the single-threaded event
loop as a sequence of atomic actions on an explicit system state.
-/

namespace Nanoclaw

/-! ## A model of the JavaScript string primitives used by src/telegram.ts -/

/-- JS decimal-digit test used by `parseInt` with radix 10. -/
def isDigitChar (c : Char) : Bool := '0' ≤ c && c ≤ '9'

/-- White space skipped by JS `parseInt` before reading the number
(the common white-space characters; the inputs built by this file carry
no leading white space at all). -/
def isSpaceChar (c : Char) : Bool := c = ' ' || c = '\t' || c = '\n' || c = '\r'

/-- Does `pat` occur at the head of `s`? -/
def leadMatch : List Char → List Char → Bool
  | [], _ => true
  | _ :: _, [] => false
  | p :: ps, x :: xs => p == x && leadMatch ps xs

/-- JS `s.endsWith(pat)`: `pat` occurs at the end of `s`. -/
def endsWithJS (s pat : List Char) : Bool := leadMatch pat.reverse s.reverse

/-- JS `s.replace(pat, repl)` with a plain string pattern: replaces the
first occurrence of `pat` only, and returns `s` unchanged when `pat` does
not occur in `s`. -/
def replaceFirst (pat repl : List Char) : List Char → List Char
  | [] => []
  | x :: xs =>
    if leadMatch pat (x :: xs) then repl ++ (x :: xs).drop pat.length
    else x :: replaceFirst pat repl xs

/-- Numeric value of a decimal digit character. -/
def digitVal (c : Char) : Nat := c.toNat - 48

/-- Value accumulated from a run of decimal digit characters. -/
def parseDigits (cs : List Char) : Nat := cs.foldl (fun a c => 10 * a + digitVal c) 0

/-- The longest leading run of decimal digits of `cs`, as a number; `none`
when `cs` does not start with a digit (JS `parseInt` then yields `NaN`). -/
def parseLeadingNat (cs : List Char) : Option Nat :=
  let ds := cs.takeWhile isDigitChar
  if ds = [] then none else some (parseDigits ds)

/-- JS `parseInt(s, 10)`: skip leading white space, read an optional sign,
then the longest run of decimal digits; `NaN` (modelled as `none`) when no
digit follows. -/
def parseIntJS (s : List Char) : Option Int :=
  match s.dropWhile isSpaceChar with
  | [] => none
  | c :: rest =>
    if c = '-' then (parseLeadingNat rest).map (fun n => -(Int.ofNat n))
    else if c = '+' then (parseLeadingNat rest).map (fun n => Int.ofNat n)
    else (parseLeadingNat (c :: rest)).map (fun n => Int.ofNat n)

/-- Decimal digit characters of `n`, most significant digit first (JS
rendering of a nonnegative integral number). -/
def natToChars (n : Nat) : List Char :=
  if n = 0 then ['0'] else ((Nat.digits 10 n).reverse).map (fun d => Char.ofNat (48 + d))

/-- JS template-literal rendering of an integral number: decimal digits,
with a leading minus sign for negative values. -/
def intToChars (c : Int) : List Char :=
  if c < 0 then '-' :: natToChars c.natAbs else natToChars c.natAbs

/-! ## src/telegram.ts -/

/-- The characters of the string literal `@telegram` of src/telegram.ts. -/
def tgSuffix : List Char := "@telegram".data

/-- src/telegram.ts `telegramChatIdToJid`: render the chat id and append
the literal `@telegram`. -/
def telegramChatIdToJid (chatId : Int) : List Char :=
  intToChars chatId ++ tgSuffix

/-- src/telegram.ts `jidToTelegramChatId`: `null` unless the JID ends with
`@telegram`; otherwise strip the first occurrence of `@telegram` and parse
the remainder with `parseInt`, returning `null` on `NaN`. -/
def jidToTelegramChatId (jid : List Char) : Option Int :=
  if endsWithJS jid tgSuffix then parseIntJS (replaceFirst tgSuffix [] jid)
  else none

/-! ### Lemmas about the string model -/

theorem leadMatch_append (p q : List Char) : leadMatch p (p ++ q) = true := by
  induction p with
  | nil => rfl
  | cons x xs ih => simp [leadMatch, ih]

theorem digitChar_facts (d : Nat) (h : d < 10) :
    isDigitChar (Char.ofNat (48 + d)) = true ∧
    digitVal (Char.ofNat (48 + d)) = d ∧
    Char.ofNat (48 + d) ≠ '@' := by
  interval_cases d <;> exact ⟨by decide, by decide, by decide⟩

theorem digit_not_space (x : Char) (h : isDigitChar x = true) :
    isSpaceChar x = false := by
  simp only [isDigitChar, Bool.and_eq_true, decide_eq_true_eq] at h
  simp only [isSpaceChar, Bool.or_eq_false_iff, decide_eq_false_iff_not]
  refine ⟨⟨⟨?_, ?_⟩, ?_⟩, ?_⟩ <;> rintro rfl <;> revert h <;> decide

theorem digit_not_sign (x : Char) (h : isDigitChar x = true) :
    x ≠ '-' ∧ x ≠ '+' := by
  simp only [isDigitChar, Bool.and_eq_true, decide_eq_true_eq] at h
  constructor <;> rintro rfl <;> revert h <;> decide

theorem natToChars_digits (n : Nat) :
    ∀ c ∈ natToChars n, isDigitChar c = true := by
  intro c hc
  unfold natToChars at hc
  by_cases h0 : n = 0
  · simp [h0] at hc
    simp [hc]; decide
  · simp only [h0, if_false, List.mem_map, List.mem_reverse] at hc
    obtain ⟨d, hd, rfl⟩ := hc
    exact (digitChar_facts d (Nat.digits_lt_base (by norm_num) hd)).1

theorem natToChars_ne_nil (n : Nat) : natToChars n ≠ [] := by
  unfold natToChars
  by_cases h0 : n = 0
  · simp [h0]
  · simp only [h0, if_false, ne_eq, List.map_eq_nil_iff, List.reverse_eq_nil_iff]
    exact Nat.digits_ne_nil_iff_ne_zero.mpr h0

theorem foldr_eq_ofDigits (L : List Nat) :
    L.foldr (fun d a => 10 * a + d) 0 = Nat.ofDigits 10 L := by
  induction L with
  | nil => simp [Nat.ofDigits]
  | cons d L ih =>
    simp only [List.foldr_cons, ih, Nat.ofDigits_cons]
    omega

theorem parseDigits_natToChars (n : Nat) : parseDigits (natToChars n) = n := by
  unfold natToChars
  by_cases h0 : n = 0
  · simp [h0]; decide
  · simp only [h0, if_false, parseDigits, List.foldl_map]
    rw [List.foldl_ext (fun a d => 10 * a + digitVal (Char.ofNat (48 + d)))
          (fun a d => 10 * a + d) 0 ?_]
    · rw [List.foldl_reverse, foldr_eq_ofDigits, Nat.ofDigits_digits]
    · intro a d hd
      show 10 * a + digitVal (Char.ofNat (48 + d)) = 10 * a + d
      rw [(digitChar_facts d (Nat.digits_lt_base (by norm_num)
            (List.mem_reverse.mp hd))).2.1]

theorem parseLeadingNat_natToChars (n : Nat) :
    parseLeadingNat (natToChars n) = some n := by
  have htake : (natToChars n).takeWhile isDigitChar = natToChars n :=
    List.takeWhile_eq_self_iff.mpr (natToChars_digits n)
  simp only [parseLeadingNat, htake, natToChars_ne_nil n, if_false]
  exact congrArg some (parseDigits_natToChars n)

theorem parseIntJS_intToChars (c : Int) : parseIntJS (intToChars c) = some c := by
  by_cases hneg : c < 0
  · have : intToChars c = '-' :: natToChars c.natAbs := by simp [intToChars, hneg]
    rw [this]
    have hdrop : ('-' :: natToChars c.natAbs).dropWhile isSpaceChar
        = '-' :: natToChars c.natAbs := by
      rw [List.dropWhile_cons_of_neg]; decide
    simp only [parseIntJS, hdrop, ite_true, if_pos rfl, parseLeadingNat_natToChars,
      Option.map_some', Option.some.injEq, Int.ofNat_eq_natCast]
    omega
  · have : intToChars c = natToChars c.natAbs := by simp [intToChars, hneg]
    rw [this]
    obtain ⟨d0, rest, hcons⟩ : ∃ d0 rest, natToChars c.natAbs = d0 :: rest := by
      cases h : natToChars c.natAbs with
      | nil => exact absurd h (natToChars_ne_nil _)
      | cons a t => exact ⟨a, t, rfl⟩
    have hd0 : isDigitChar d0 = true := natToChars_digits _ d0 (by rw [hcons]; simp)
    have hdrop : (natToChars c.natAbs).dropWhile isSpaceChar
        = d0 :: rest := by
      rw [hcons, List.dropWhile_cons_of_neg]
      simp [digit_not_space d0 hd0]
    simp only [parseIntJS, hdrop]
    rw [if_neg (digit_not_sign d0 hd0).1, if_neg (digit_not_sign d0 hd0).2,
      ← hcons, parseLeadingNat_natToChars]
    simp only [Option.map_some', Option.some.injEq, Int.ofNat_eq_natCast]
    omega

theorem tgSuffix_head : tgSuffix = '@' :: "telegram".data := rfl

theorem replaceFirst_strip (xs : List Char) (hxs : ∀ x ∈ xs, x ≠ '@') :
    replaceFirst tgSuffix [] (xs ++ tgSuffix) = xs := by
  induction xs with
  | nil => decide
  | cons x xs ih =>
    rw [List.cons_append, replaceFirst]
    have hx : x ≠ '@' := hxs x (by simp)
    have hm : leadMatch tgSuffix (x :: (xs ++ tgSuffix)) = false := by
      rw [tgSuffix_head, leadMatch]
      simp [Ne.symm hx]
    simp only [hm, Bool.false_eq_true, if_false]
    rw [ih (fun y hy => hxs y (by simp [hy]))]

theorem intToChars_no_at (c : Int) : ∀ x ∈ intToChars c, x ≠ '@' := by
  intro x hx
  unfold intToChars at hx
  have hdig : ∀ y ∈ natToChars c.natAbs, y ≠ '@' := by
    intro y hy heq
    have := natToChars_digits c.natAbs y hy
    rw [heq] at this
    exact absurd this (by decide)
  by_cases hneg : c < 0
  · simp only [hneg, if_true, List.mem_cons] at hx
    rcases hx with rfl | hx
    · decide
    · exact hdig x hx
  · simp only [hneg, if_false] at hx
    exact hdig x hx

theorem endsWithJS_append (xs : List Char) :
    endsWithJS (xs ++ tgSuffix) tgSuffix = true := by
  unfold endsWithJS
  rw [List.reverse_append]
  exact leadMatch_append tgSuffix.reverse xs.reverse

/-- C10: the JID encoding round-trips on every integral chat id, and a JID
that does not end with `@telegram` is rejected with `null`. -/
theorem claim_C10_jid_roundtrip :
    (∀ c : Int, jidToTelegramChatId (telegramChatIdToJid c) = some c) ∧
    (∀ jid : List Char, endsWithJS jid tgSuffix = false →
      jidToTelegramChatId jid = none) := by
  constructor
  · intro c
    unfold jidToTelegramChatId telegramChatIdToJid
    rw [if_pos (endsWithJS_append (intToChars c)),
      replaceFirst_strip (intToChars c) (intToChars_no_at c)]
    exact parseIntJS_intToChars c
  · intro jid h
    unfold jidToTelegramChatId
    rw [h]
    simp

/-- Witness for C10 at concrete inputs: chat id `-42` round-trips, and the
JID `12@x` is rejected. -/
theorem claim_C10_jid_roundtrip_witness :
    jidToTelegramChatId (telegramChatIdToJid (-42)) = some (-42) ∧
    (endsWithJS "12@x".data tgSuffix = false ∧
      jidToTelegramChatId "12@x".data = none) :=
  ⟨claim_C10_jid_roundtrip.1 (-42), by decide,
    claim_C10_jid_roundtrip.2 "12@x".data (by decide)⟩

/-! ## src/dashboard-events.ts: the bounded retained buffer -/

/-- `maxEvents` of `DashboardEventEmitter`: the retained-history capacity. -/
def maxEvents : Nat := 100

/-- One `emitDashboard` update of the retained buffer, for capacity `mx`:
`this.recentEvents.push(event)`, then
`if (this.recentEvents.length > this.maxEvents) this.recentEvents.shift()`.
JS `Array.prototype.shift` removes the first (oldest) element. -/
def emitBuffer {E : Type} (mx : Nat) (buf : List E) (e : E) : List E :=
  let l := buf ++ [e]
  if mx < l.length then l.tail else l

theorem tail_append_single {E : Type} (l : List E) (a : E) (h : l ≠ []) :
    (l ++ [a]).tail = l.tail ++ [a] := by
  cases l with
  | nil => exact absurd rfl h
  | cons x xs => rfl

theorem emitBuffer_foldl {E : Type} (mx : Nat) (es : List E) :
    es.foldl (emitBuffer mx) [] = es.drop (es.length - mx) := by
  induction es using List.reverseRecOn with
  | nil => simp
  | append_singleton es a ih =>
    rw [List.foldl_append, List.foldl_cons, List.foldl_nil, ih]
    simp only [emitBuffer, List.length_append, List.length_drop,
      List.length_cons, List.length_nil, Nat.zero_add]
    by_cases h : es.length < mx
    · rw [if_neg (by omega)]
      have h1 : es.length - mx = 0 := by omega
      have h2 : es.length + 1 - mx = 0 := by omega
      rw [h1, h2, List.drop_zero, List.drop_zero]
    · rw [if_pos (by omega)]
      by_cases hmx : mx = 0
      · subst hmx
        rw [Nat.sub_zero, Nat.sub_zero, List.drop_length]
        rw [show es.length + 1 = (es ++ [a]).length by simp, List.drop_length]
        rfl
      · have hne : es.drop (es.length - mx) ≠ [] := by
          intro hnil
          have := congrArg List.length hnil
          simp only [List.length_drop, List.length_nil] at this
          omega
        rw [tail_append_single _ _ hne, List.tail_drop,
          List.drop_append_of_le_length (by omega),
          show es.length - mx + 1 = es.length + 1 - mx from by omega]

/-! ## The event-distribution system

State of the single-threaded process: the bus of dashboard-events.ts plus
the per-connection state of dashboard-server.ts. Connections are numbered
in arrival order; `nextId` is the number the next connection will get.
`handlers` is the Node `EventEmitter` listener list for the `dashboard`
event, in registration order; the listener registered by connection `c`
forwards events to connection `c`'s socket. -/

/-- A message sent over a viewer's WebSocket: the one-shot `history`
message sent on connect, or a single live `event` message. -/
inductive Msg (E : Type) where
  | history (events : List E)
  | event (e : E)
deriving DecidableEq

/-- One viewer connection: whether `ws.readyState === WebSocket.OPEN`
still holds, and the messages sent to it so far, oldest first. -/
structure Conn (E : Type) where
  isOpen : Bool
  received : List (Msg E)
deriving DecidableEq

/-- Whole-system state. `invocations` is a ghost log: each listener call
performed by `emit` appends the pair (listener's connection, event), so
the order and multiplicity of subscriber-callback invocations is
observable in the model. -/
structure SystemState (E : Type) where
  recentEvents : List E
  handlers : List Nat
  conns : Nat → Conn E
  nextId : Nat
  invocations : List (Nat × E)

/-- The state at process start: empty buffer, no listeners, no
connections. -/
def initState (E : Type) : SystemState E :=
  { recentEvents := [], handlers := [], conns := fun _ => ⟨false, []⟩,
    nextId := 0, invocations := [] }

/-- dashboard-events.ts `getRecentEvents`: `[...this.recentEvents]`, a
fresh array holding the current retained sequence. Content-wise it equals
the buffer; the aliasing consequences of the copy are checked separately
on the heap model below. -/
def getRecentEvents {E : Type} (s : SystemState E) : List E :=
  s.recentEvents

/-- The subscriber callback dashboard-server.ts registers for connection
`h`: `if (ws.readyState === WebSocket.OPEN) ws.send(...)` — forward the
event to the socket when it is still open, else do nothing. -/
def notifyOne {E : Type} (e : E) (conns : Nat → Conn E) (h : Nat) : Nat → Conn E :=
  fun i =>
    if i = h then
      if (conns h).isOpen then
        { conns h with received := (conns h).received ++ [Msg.event e] }
      else conns h
    else conns i

/-- Node `EventEmitter.emit('dashboard', event)`: invoke every currently
registered listener, in registration order. -/
def notifyAll {E : Type} (e : E) (conns : Nat → Conn E) (hs : List Nat) : Nat → Conn E :=
  hs.foldl (notifyOne e) conns

/-- dashboard-events.ts `emitDashboard`: push onto the retained buffer,
shift the oldest entry out when over capacity, then emit the event to
every listener. The ghost `invocations` log records each listener call
the emit performs, in call order. -/
def emitDashboard {E : Type} (s : SystemState E) (e : E) : SystemState E :=
  { s with
    recentEvents := emitBuffer maxEvents s.recentEvents e
    conns := notifyAll e s.conns s.handlers
    invocations := s.invocations ++ s.handlers.map (fun h => (h, e)) }

/-- dashboard-server.ts `wss.on('connection', ...)`: take the snapshot
`getRecentEvents()`, send it to the new socket as one `history` message —
the source guards this send with no open-check — then register the
forwarding listener. `b` is the transport-supplied `readyState` of the
arriving socket; the history send happens whatever `b` is, mirroring the
unguarded `ws.send(...)` of the source. -/
def onConnect {E : Type} (s : SystemState E) (b : Bool) : SystemState E :=
  { s with
    conns := fun i =>
      if i = s.nextId then ⟨b, [Msg.history (getRecentEvents s)]⟩ else s.conns i
    handlers := s.handlers ++ [s.nextId]
    nextId := s.nextId + 1 }

/-- Node `EventEmitter.off('dashboard', handler)` as the close handler of
dashboard-server.ts calls it: remove one occurrence of connection `c`'s
listener from the listener list; removing an absent listener changes
nothing. -/
def offHandler {E : Type} (s : SystemState E) (c : Nat) : SystemState E :=
  { s with handlers := s.handlers.erase c }

/-- The transport closes connection `c`'s socket: `readyState` leaves
`OPEN`. -/
def setClosed {E : Type} (s : SystemState E) (c : Nat) : SystemState E :=
  { s with conns := fun i =>
      if i = c then { s.conns c with isOpen := false } else s.conns i }

/-- The externally-triggered atomic steps of the single-threaded event
loop: a producer publishes, a viewer connects (with the given socket
state), the transport closes a socket, or the `ws.on('close')` callback
runs for connection `c` (the socket is closed and its listener removed). -/
inductive Act (E : Type) where
  | publish (e : E)
  | connect (b : Bool)
  | sinkClose (c : Nat)
  | closeEvt (c : Nat)
deriving DecidableEq

def stepAct {E : Type} (s : SystemState E) (a : Act E) : SystemState E :=
  match a with
  | .publish e => emitDashboard s e
  | .connect b => onConnect s b
  | .sinkClose c => setClosed s c
  | .closeEvt c => offHandler (setClosed s c) c

/-- Run a sequence of event-loop steps. -/
def run {E : Type} (s : SystemState E) (acts : List (Act E)) : SystemState E :=
  acts.foldl stepAct s

theorem run_publish_buffer {E : Type} (s : SystemState E) (es : List E) :
    (run s (es.map Act.publish)).recentEvents =
      es.foldl (emitBuffer maxEvents) s.recentEvents := by
  induction es generalizing s with
  | nil => rfl
  | cons e es ih =>
    simp only [List.map_cons, run, List.foldl_cons]
    exact ih (stepAct s (Act.publish e))

/-- C2: after publishing `es` on a fresh bus, `getRecentEvents` returns
exactly the last `min N capacity` events in publish order; its length is
`min N capacity` (so never exceeds the capacity); and a publish on a
full buffer evicts exactly the oldest retained event (strict FIFO). -/
theorem claim_C2_bounded_fifo :
    (∀ (E : Type) (es : List E),
      getRecentEvents (run (initState E) (es.map Act.publish)) =
        es.drop (es.length - maxEvents)) ∧
    (∀ (E : Type) (es : List E),
      (getRecentEvents (run (initState E) (es.map Act.publish))).length =
        min es.length maxEvents) ∧
    (∀ (E : Type) (buf : List E) (e : E), buf.length = maxEvents →
      emitBuffer maxEvents buf e = buf.tail ++ [e]) := by
  have hbuf : ∀ (E : Type) (es : List E),
      getRecentEvents (run (initState E) (es.map Act.publish)) =
        es.drop (es.length - maxEvents) := by
    intro E es
    show (run (initState E) (es.map Act.publish)).recentEvents = _
    rw [run_publish_buffer]
    exact emitBuffer_foldl maxEvents es
  refine ⟨hbuf, ?_, ?_⟩
  · intro E es
    rw [hbuf E es, List.length_drop]
    omega
  · intro E buf e hlen
    have hne : buf ≠ [] := by
      intro h
      rw [h] at hlen
      simp [maxEvents] at hlen
    simp only [emitBuffer, List.length_append, List.length_singleton]
    rw [if_pos (by omega), tail_append_single buf e hne]

/-- Witness for C2 at concrete inputs: three publishes retain all three
events, and a publish on a full buffer of one hundred zeros drops the
oldest entry. -/
theorem claim_C2_bounded_fifo_witness :
    getRecentEvents (run (initState Nat) ([7, 8, 9].map Act.publish)) = [7, 8, 9] ∧
    emitBuffer maxEvents (List.replicate maxEvents 0) 5 =
      (List.replicate maxEvents 0).tail ++ [5] := by
  constructor
  · exact (claim_C2_bounded_fifo.1 Nat [7, 8, 9]).trans (by decide)
  · exact claim_C2_bounded_fifo.2.2 Nat (List.replicate maxEvents 0) 5 (by decide)

/-! ## Cost of the buffer update (claim C9)

A cost model for the JS array operations `emitDashboard` performs on the
retained buffer, counting array-cell writes/moves:
`Array.prototype.push` writes one new cell; `Array.prototype.shift`
removes the first element and moves every remaining element down one
slot, so it touches as many cells as the array it runs on is long. -/

/-- Cell operations of `push`. -/
def pushCost : Nat := 1

/-- Cell operations of `shift` on an array of length `len`. -/
def shiftCost (len : Nat) : Nat := len

/-- Array-cell operations `emitDashboard` spends on the retained buffer
when it currently holds `n` events and the capacity is `mx`: one `push`,
then a `shift` of the grown buffer when it exceeds the capacity —
mirroring the push/conditional-shift of `emitBuffer`. -/
def emitBufferCost (mx n : Nat) : Nat :=
  pushCost + (if mx < n + 1 then shiftCost (n + 1) else 0)

/-- C9 refuted as stated: the per-publish work on the retained buffer
admits no bound uniform in the capacity, because an evicting publish
shifts the whole buffer. -/
theorem claim_C9_counterexample :
    ¬ ∃ C : Nat, ∀ mx n : Nat, n ≤ mx → emitBufferCost mx n ≤ C := by
  rintro ⟨C, hC⟩
  have h := hC (C + 1) (C + 1) (le_refl _)
  simp only [emitBufferCost, pushCost, shiftCost] at h
  rw [if_pos (by omega)] at h
  omega

/-- C9 amended: a publish that evicts (buffer at capacity `mx`) costs
exactly `mx + 2` cell operations — linear in the capacity, not `O(1)` —
while a non-evicting publish costs `1`; since the capacity is the fixed
constant `100`, every publish's buffer work is bounded by `102`. -/
theorem claim_C9_publish_cost :
    (∀ mx n : Nat, n = mx → emitBufferCost mx n = mx + 2) ∧
    (∀ mx n : Nat, n + 1 ≤ mx → emitBufferCost mx n = 1) ∧
    (∀ n : Nat, n ≤ maxEvents → emitBufferCost maxEvents n ≤ maxEvents + 2) := by
  refine ⟨?_, ?_, ?_⟩
  · intro mx n h
    subst h
    simp only [emitBufferCost, pushCost, shiftCost]
    rw [if_pos (by omega)]
    omega
  · intro mx n h
    simp only [emitBufferCost, pushCost, shiftCost]
    rw [if_neg (by omega)]
  · intro n h
    simp only [emitBufferCost, pushCost, shiftCost, maxEvents] at h ⊢
    by_cases h1 : 100 < n + 1
    · rw [if_pos h1]; omega
    · rw [if_neg h1]; omega

/-- Witness for the amended C9 at concrete inputs: a publish on a full
buffer of capacity 100 costs 102 cell operations, a publish on a buffer
of 3 of capacity 100 costs 1, and every reachable buffer cost is within
the constant bound. -/
theorem claim_C9_publish_cost_witness :
    emitBufferCost 100 100 = 100 + 2 ∧
    emitBufferCost 100 3 = 1 ∧
    emitBufferCost maxEvents 100 ≤ maxEvents + 2 :=
  ⟨claim_C9_publish_cost.1 100 100 rfl,
    claim_C9_publish_cost.2.1 100 3 (by omega),
    claim_C9_publish_cost.2.2 100 (by decide)⟩

/-! ### Basic step lemmas -/

/-- The events published by a sequence of steps, in publish order. -/
def eventsOf {E : Type} (acts : List (Act E)) : List E :=
  acts.filterMap (fun a => match a with | Act.publish e => some e | _ => none)

theorem run_append {E : Type} (s : SystemState E) (l1 l2 : List (Act E)) :
    run s (l1 ++ l2) = run (run s l1) l2 :=
  List.foldl_append stepAct s l1 l2

theorem notifyOne_isOpen {E : Type} (e : E) (conns : Nat → Conn E) (h i : Nat) :
    (notifyOne e conns h i).isOpen = (conns i).isOpen := by
  unfold notifyOne
  by_cases hih : i = h
  · subst hih
    by_cases ho : (conns i).isOpen <;> simp [ho]
  · simp [hih]

theorem notifyAll_isOpen {E : Type} (e : E) (hs : List Nat) :
    ∀ (conns : Nat → Conn E) (i : Nat),
      (notifyAll e conns hs i).isOpen = (conns i).isOpen := by
  induction hs with
  | nil => intro conns i; rfl
  | cons h hs ih =>
    intro conns i
    show (notifyAll e (notifyOne e conns h) hs i).isOpen = _
    rw [ih (notifyOne e conns h) i, notifyOne_isOpen]

theorem notifyAll_closed {E : Type} (e : E) (hs : List Nat) :
    ∀ (conns : Nat → Conn E) (c : Nat), (conns c).isOpen = false →
      notifyAll e conns hs c = conns c := by
  induction hs with
  | nil => intro conns c _; rfl
  | cons h hs ih =>
    intro conns c hc
    show notifyAll e (notifyOne e conns h) hs c = conns c
    have hone : notifyOne e conns h c = conns c := by
      unfold notifyOne
      by_cases hch : c = h
      · subst hch
        simp [hc]
      · simp [hch]
    rw [ih (notifyOne e conns h) c (by rw [hone, hc]), hone]

theorem notifyAll_not_mem {E : Type} (e : E) (hs : List Nat) :
    ∀ (conns : Nat → Conn E) (c : Nat), c ∉ hs →
      notifyAll e conns hs c = conns c := by
  induction hs with
  | nil => intro conns c _; rfl
  | cons h hs ih =>
    intro conns c hc
    have hch : c ≠ h := fun h' => hc (h' ▸ List.mem_cons_self h hs)
    show notifyAll e (notifyOne e conns h) hs c = conns c
    have hone : notifyOne e conns h c = conns c := by simp [notifyOne, hch]
    rw [ih (notifyOne e conns h) c (fun hm => hc (List.mem_cons_of_mem h hm)), hone]

theorem conn_eta {E : Type} (c : Conn E) (h : c.isOpen = true) :
    c = ⟨true, c.received⟩ := by
  cases c with
  | mk o r =>
    have h2 : o = true := h
    subst h2
    rfl

theorem notifyAll_count_one {E : Type} (e : E) (hs : List Nat) :
    ∀ (conns : Nat → Conn E) (c : Nat), hs.count c = 1 →
      (conns c).isOpen = true →
      notifyAll e conns hs c =
        ⟨true, (conns c).received ++ [Msg.event e]⟩ := by
  induction hs with
  | nil => intro conns c hcount _; simp at hcount
  | cons h hs ih =>
    intro conns c hcount ho
    show notifyAll e (notifyOne e conns h) hs c = _
    by_cases hch : c = h
    · subst hch
      rw [List.count_cons_self] at hcount
      have hnot : c ∉ hs := List.count_eq_zero.mp (by omega)
      have hone : notifyOne e conns c c =
          ⟨true, (conns c).received ++ [Msg.event e]⟩ := by
        unfold notifyOne
        rw [if_pos rfl, if_pos ho, conn_eta (conns c) ho]
      rw [notifyAll_not_mem e hs (notifyOne e conns c) c hnot, hone]
    · rw [List.count_cons_of_ne hch] at hcount
      have hone : notifyOne e conns h c = conns c := by simp [notifyOne, hch]
      rw [ih (notifyOne e conns h) c hcount (by rw [hone, ho])]
      rw [hone]

/-! ### Reachability invariant: listener ids are distinct and below the
connection counter -/

def GoodState {E : Type} (s : SystemState E) : Prop :=
  s.handlers.Nodup ∧ ∀ h ∈ s.handlers, h < s.nextId

theorem initState_good (E : Type) : GoodState (initState E) := by
  constructor
  · exact List.nodup_nil
  · intro h hm
    simp [initState] at hm

theorem stepAct_good {E : Type} (s : SystemState E) (a : Act E)
    (hg : GoodState s) : GoodState (stepAct s a) := by
  obtain ⟨hnd, hlt⟩ := hg
  cases a with
  | publish e => exact ⟨hnd, hlt⟩
  | connect b =>
    constructor
    · rw [show (stepAct s (Act.connect b)).handlers = s.handlers ++ [s.nextId] from rfl]
      rw [List.nodup_append]
      refine ⟨hnd, List.nodup_singleton _, ?_⟩
      intro x hx hx1
      rw [List.mem_singleton] at hx1
      subst hx1
      exact absurd (hlt _ hx) (lt_irrefl _)
    · intro h hm
      rw [show (stepAct s (Act.connect b)).handlers = s.handlers ++ [s.nextId] from rfl,
        List.mem_append, List.mem_singleton] at hm
      show h < s.nextId + 1
      rcases hm with hm | hm
      · exact Nat.lt_succ_of_lt (hlt h hm)
      · omega
  | sinkClose c => exact ⟨hnd, hlt⟩
  | closeEvt c =>
    constructor
    · exact hnd.erase c
    · intro h hm
      exact hlt h (List.mem_of_mem_erase hm)

theorem run_good {E : Type} (acts : List (Act E)) :
    ∀ (s : SystemState E), GoodState s → GoodState (run s acts) := by
  induction acts with
  | nil => intro s hg; exact hg
  | cons a acts ih =>
    intro s hg
    exact ih (stepAct s a) (stepAct_good s a hg)

/-! ### Claim C7: idempotent unsubscribe -/

/-- C7: removing an absent/already-removed listener is an identity on the
whole state; on any reachable state, unsubscribing twice equals
unsubscribing once; and unsubscribe never touches the retained buffer. -/
theorem claim_C7_idempotent_unsub :
    (∀ (E : Type) (s : SystemState E) (c : Nat), c ∉ s.handlers →
      offHandler s c = s) ∧
    (∀ (E : Type) (acts : List (Act E)) (c : Nat),
      offHandler (offHandler (run (initState E) acts) c) c =
        offHandler (run (initState E) acts) c) ∧
    (∀ (E : Type) (s : SystemState E) (c : Nat),
      (offHandler s c).recentEvents = s.recentEvents) := by
  have habsent : ∀ (E : Type) (s : SystemState E) (c : Nat), c ∉ s.handlers →
      offHandler s c = s := by
    intro E s c hc
    unfold offHandler
    rw [List.erase_of_not_mem hc]
  refine ⟨habsent, ?_, fun E s c => rfl⟩
  intro E acts c
  have hg : GoodState (run (initState E) acts) :=
    run_good acts (initState E) (initState_good E)
  exact habsent E _ c (hg.1.not_mem_erase)

/-- Witness for C7 at concrete inputs: unsubscribing the unknown handle 3
from the fresh state is a no-op, and double unsubscribe of connection 0
after one connect equals a single unsubscribe. -/
theorem claim_C7_idempotent_unsub_witness :
    offHandler (initState Nat) 3 = initState Nat ∧
    offHandler (offHandler (run (initState Nat) [Act.connect true]) 0) 0 =
      offHandler (run (initState Nat) [Act.connect true]) 0 :=
  ⟨claim_C7_idempotent_unsub.1 Nat (initState Nat) 3 (by decide),
    claim_C7_idempotent_unsub.2.1 Nat [Act.connect true] 0⟩

/-! ### Claim C8: disconnect stops delivery -/

theorem step_preserves_unsub {E : Type} (s : SystemState E) (a : Act E)
    (c : Nat) (hc1 : c ∉ s.handlers) (hc2 : c < s.nextId) :
    c ∉ (stepAct s a).handlers ∧ c < (stepAct s a).nextId ∧
      ((stepAct s a).conns c).received = (s.conns c).received := by
  cases a with
  | publish e =>
    refine ⟨hc1, hc2, ?_⟩
    show (notifyAll e s.conns s.handlers c).received = _
    rw [notifyAll_not_mem e s.handlers s.conns c hc1]
  | connect b =>
    refine ⟨?_, by show c < s.nextId + 1; omega, ?_⟩
    · intro hm
      rw [show (stepAct s (Act.connect b)).handlers = s.handlers ++ [s.nextId] from rfl,
        List.mem_append, List.mem_singleton] at hm
      rcases hm with hm | hm
      · exact hc1 hm
      · omega
    · show ((if c = s.nextId then _ else s.conns c) : Conn E).received = _
      rw [if_neg (by omega)]
  | sinkClose c' =>
    refine ⟨hc1, hc2, ?_⟩
    show ((if c = c' then { s.conns c' with isOpen := false } else s.conns c) : Conn E).received = _
    by_cases hcc : c = c'
    · subst hcc; simp
    · rw [if_neg hcc]
  | closeEvt c' =>
    refine ⟨fun hm => hc1 (List.mem_of_mem_erase hm), hc2, ?_⟩
    show ((if c = c' then { s.conns c' with isOpen := false } else s.conns c) : Conn E).received = _
    by_cases hcc : c = c'
    · subst hcc; simp
    · rw [if_neg hcc]

theorem run_preserves_unsub {E : Type} (acts : List (Act E)) :
    ∀ (s : SystemState E) (c : Nat), c ∉ s.handlers → c < s.nextId →
      ((run s acts).conns c).received = (s.conns c).received := by
  induction acts with
  | nil => intro s c _ _; rfl
  | cons a acts ih =>
    intro s c hc1 hc2
    obtain ⟨h1, h2, h3⟩ := step_preserves_unsub s a c hc1 hc2
    show ((run (stepAct s a) acts).conns c).received = _
    rw [ih (stepAct s a) c h1 h2, h3]

/-- C8: once connection `c`'s close event has run (socket closed, listener
unsubscribed), no later step — publishes for other connections included —
ever changes the messages sent to `c`. -/
theorem claim_C8_disconnect_stops :
    ∀ (E : Type) (acts more : List (Act E)) (c : Nat),
      c < (run (initState E) acts).nextId →
      ((run (run (initState E) (acts ++ [Act.closeEvt c])) more).conns c).received =
        ((run (initState E) (acts ++ [Act.closeEvt c])).conns c).received := by
  intro E acts more c hc
  have hg : GoodState (run (initState E) acts) :=
    run_good acts (initState E) (initState_good E)
  rw [run_append]
  set s0 := run (initState E) acts with hs0
  have hh : (run s0 [Act.closeEvt c]).handlers = s0.handlers.erase c := rfl
  have hnm : c ∉ (run s0 [Act.closeEvt c]).handlers := by
    rw [hh]
    exact hg.1.not_mem_erase
  have hlt : c < (run s0 [Act.closeEvt c]).nextId := hc
  exact run_preserves_unsub more (run s0 [Act.closeEvt c]) c hnm hlt

/-- Witness for C8 at concrete inputs: connection 0 connects and closes;
two further publishes and another connection leave its message list at
just its history message. -/
theorem claim_C8_disconnect_stops_witness :
    ((run (run (initState Nat) ([Act.connect true] ++ [Act.closeEvt 0]))
        [Act.publish 5, Act.connect true, Act.publish 6]).conns 0).received =
      ((run (initState Nat) ([Act.connect true] ++ [Act.closeEvt 0])).conns 0).received :=
  claim_C8_disconnect_stops Nat [Act.connect true]
    [Act.publish 5, Act.connect true, Act.publish 6] 0 (by decide)

/-! ### Claim C6: fan-out order and no retroactive delivery -/

theorem run_publish_no_listeners {E : Type} (es : List E) :
    ∀ (s : SystemState E), s.handlers = [] →
      (run s (es.map Act.publish)).handlers = s.handlers ∧
      (run s (es.map Act.publish)).nextId = s.nextId ∧
      (run s (es.map Act.publish)).conns = s.conns ∧
      (run s (es.map Act.publish)).invocations = s.invocations := by
  induction es with
  | nil => intro s _; exact ⟨rfl, rfl, rfl, rfl⟩
  | cons e es ih =>
    intro s h
    obtain ⟨a1, a2, a3, a4⟩ := ih (stepAct s (Act.publish e)) h
    have hconns : (stepAct s (Act.publish e)).conns = s.conns := by
      show notifyAll e s.conns s.handlers = s.conns
      rw [h]
      rfl
    have hinv : (stepAct s (Act.publish e)).invocations = s.invocations := by
      show s.invocations ++ s.handlers.map (fun h2 => (h2, e)) = s.invocations
      rw [h, List.map_nil, List.append_nil]
    exact ⟨a1, a2, a3.trans hconns, a4.trans hinv⟩

theorem run_publish_one_listener {E : Type} (fs : List E) :
    ∀ (s : SystemState E), s.handlers = [0] →
      (run s (fs.map Act.publish)).invocations =
        s.invocations ++ fs.map (fun f => ((0 : Nat), f)) := by
  induction fs with
  | nil => intro s _; simp [run]
  | cons f fs ih =>
    intro s h
    show (run (stepAct s (Act.publish f)) (fs.map Act.publish)).invocations = _
    rw [ih (stepAct s (Act.publish f)) h]
    show (s.invocations ++ s.handlers.map fun h2 => (h2, f)) ++ _ = _
    rw [h, List.append_assoc]
    rfl

/-- C6: a publish invokes every currently-registered listener exactly once
with the published event, in registration order (the ghost invocation log
grows by exactly the registered listeners, in list order); and the
listener registered by a connection is invoked for exactly the events
published after its registration, never for the earlier ones. -/
theorem claim_C6_fanout_exactly_once :
    (∀ (E : Type) (s : SystemState E) (e : E),
      (emitDashboard s e).invocations =
        s.invocations ++ s.handlers.map (fun h => (h, e))) ∧
    (∀ (E : Type) (es fs : List E),
      (run (initState E)
          (es.map Act.publish ++ Act.connect true :: fs.map Act.publish)).invocations =
        fs.map (fun f => ((0 : Nat), f))) := by
  refine ⟨fun E s e => rfl, ?_⟩
  intro E es fs
  rw [run_append]
  obtain ⟨hh, hnx, _, hinv⟩ := run_publish_no_listeners es (initState E) rfl
  set s0 := run (initState E) (es.map Act.publish) with hs0
  show (run (stepAct s0 (Act.connect true)) (fs.map Act.publish)).invocations = _
  have hh1 : (stepAct s0 (Act.connect true)).handlers = [0] := by
    show s0.handlers ++ [s0.nextId] = [0]
    rw [hh, hnx]
    rfl
  rw [run_publish_one_listener fs (stepAct s0 (Act.connect true)) hh1]
  show s0.invocations ++ _ = _
  rw [hinv]
  rfl

/-! ### Claim C1: no-gap, no-duplicate delivery to a connection -/

theorem run_open_delivery {E : Type} (more : List (Act E)) :
    ∀ (s : SystemState E),
      (s.conns 0).isOpen = true → s.handlers.count 0 = 1 → 0 < s.nextId →
      (∀ a ∈ more, a ≠ Act.sinkClose 0 ∧ a ≠ Act.closeEvt 0) →
      ((run s more).conns 0).received =
        (s.conns 0).received ++ (eventsOf more).map Msg.event := by
  induction more with
  | nil => intro s _ _ _ _; simp [run, eventsOf]
  | cons a more ih =>
    intro s ho hcount hnext hmore
    have hmore' : ∀ x ∈ more, x ≠ Act.sinkClose 0 ∧ x ≠ Act.closeEvt 0 :=
      fun x hx => hmore x (List.mem_cons_of_mem a hx)
    show ((run (stepAct s a) more).conns 0).received = _
    cases a with
    | publish e =>
      have hconn : (stepAct s (Act.publish e)).conns 0 =
          ⟨true, (s.conns 0).received ++ [Msg.event e]⟩ :=
        notifyAll_count_one e s.handlers s.conns 0 hcount ho
      rw [ih (stepAct s (Act.publish e)) (by rw [hconn]) hcount hnext hmore', hconn]
      show ((s.conns 0).received ++ [Msg.event e]) ++ _ = _
      rw [List.append_assoc]
      rfl
    | connect b =>
      have hconn : (stepAct s (Act.connect b)).conns 0 = s.conns 0 := by
        show (if 0 = s.nextId then _ else s.conns 0) = s.conns 0
        rw [if_neg (by omega)]
      have hcount' : (stepAct s (Act.connect b)).handlers.count 0 = 1 := by
        show (s.handlers ++ [s.nextId]).count 0 = 1
        rw [List.count_append]
        have h0 : List.count 0 [s.nextId] = 0 := by
          rw [List.count_eq_zero, List.mem_singleton]
          omega
        omega
      rw [ih (stepAct s (Act.connect b)) (by rw [hconn]; exact ho) hcount'
        (by show 0 < s.nextId + 1; omega) hmore', hconn]
      rfl
    | sinkClose c' =>
      have hc' : c' ≠ 0 := fun h =>
        (hmore _ (List.mem_cons_self _ _)).1 (by rw [h])
      have hconn : (stepAct s (Act.sinkClose c')).conns 0 = s.conns 0 := by
        show (if 0 = c' then _ else s.conns 0) = s.conns 0
        rw [if_neg (fun h => hc' h.symm)]
      rw [ih (stepAct s (Act.sinkClose c')) (by rw [hconn]; exact ho) hcount
        hnext hmore', hconn]
      rfl
    | closeEvt c' =>
      have hc' : c' ≠ 0 := fun h =>
        (hmore _ (List.mem_cons_self _ _)).2 (by rw [h])
      have hconn : (stepAct s (Act.closeEvt c')).conns 0 = s.conns 0 := by
        show (if 0 = c' then _ else s.conns 0) = s.conns 0
        rw [if_neg (fun h => hc' h.symm)]
      have hcount' : (stepAct s (Act.closeEvt c')).handlers.count 0 = 1 := by
        show (s.handlers.erase c').count 0 = 1
        rw [List.count_erase_of_ne (fun h => hc' h.symm)]
        exact hcount
      rw [ih (stepAct s (Act.closeEvt c')) (by rw [hconn]; exact ho) hcount'
        hnext hmore', hconn]
      rfl

/-- C1: a connection opened after exactly the `K ≤ capacity` events `es`
have been published receives exactly `es` as its single history message;
then, as long as its own socket stays open, it receives every event
published afterwards exactly once, as live `event` messages in publish
order, with nothing delivered both in the history and live. -/
theorem claim_C1_no_gap_no_dup :
    ∀ (E : Type) (es : List E) (more : List (Act E)),
      es.length ≤ maxEvents →
      (∀ a ∈ more, a ≠ Act.sinkClose 0 ∧ a ≠ Act.closeEvt 0) →
      ((run (initState E)
          (es.map Act.publish ++ Act.connect true :: more)).conns 0).received =
        Msg.history es :: (eventsOf more).map Msg.event := by
  intro E es more hK hmore
  rw [run_append]
  obtain ⟨hh, hnx, hcs, _⟩ := run_publish_no_listeners es (initState E) rfl
  set s0 := run (initState E) (es.map Act.publish) with hs0
  have hbuf : getRecentEvents s0 = es := by
    show s0.recentEvents = es
    rw [hs0, run_publish_buffer]
    show es.foldl (emitBuffer maxEvents) [] = es
    rw [emitBuffer_foldl]
    rw [show es.length - maxEvents = 0 from by omega, List.drop_zero]
  show ((run (stepAct s0 (Act.connect true)) more).conns 0).received = _
  have hc1 : (stepAct s0 (Act.connect true)).conns 0 = ⟨true, [Msg.history es]⟩ := by
    show (if 0 = s0.nextId
        then (⟨true, [Msg.history (getRecentEvents s0)]⟩ : Conn E)
        else s0.conns 0) = _
    rw [hnx, show (initState E).nextId = 0 from rfl, if_pos rfl, hbuf]
  have hcount : (stepAct s0 (Act.connect true)).handlers.count 0 = 1 := by
    show (s0.handlers ++ [s0.nextId]).count 0 = 1
    rw [hh, hnx]
    rfl
  have hnext : 0 < (stepAct s0 (Act.connect true)).nextId := by
    show 0 < s0.nextId + 1
    omega
  rw [run_open_delivery more (stepAct s0 (Act.connect true)) (by rw [hc1])
    hcount hnext hmore, hc1]
  rfl

/-- Witness for C1 at concrete inputs: after publishing 1 and 2, a
connection opens and then sees exactly the live events 3 and 4, even
though another connection opens and closes in between. -/
theorem claim_C1_no_gap_no_dup_witness :
    ((run (initState Nat)
        ([1, 2].map Act.publish ++ Act.connect true ::
          [Act.publish 3, Act.connect false, Act.publish 4,
            Act.closeEvt 1])).conns 0).received =
      [Msg.history [1, 2], Msg.event 3, Msg.event 4] :=
  (claim_C1_no_gap_no_dup Nat [1, 2]
    [Act.publish 3, Act.connect false, Act.publish 4, Act.closeEvt 1]
    (by decide) (by decide)).trans (by decide)

/-! ### Claim C4: open-checks before sends -/

/-- C4 refuted as stated: the one-shot history send on connect is not
preceded by any open-check — a connection whose socket is already closed
when the `connection` callback runs still gets the history message
recorded as sent, instead of the send being dropped. -/
theorem claim_C4_counterexample :
    ((run (initState Nat) [Act.publish 5, Act.connect false]).conns 0).isOpen = false ∧
    ((run (initState Nat) [Act.publish 5, Act.connect false]).conns 0).received =
      [Msg.history [5]] :=
  ⟨rfl, rfl⟩

/-- C4 amended: every live `event` send performed by the publish fan-out
is immediately preceded by the `readyState === OPEN` check and silently
dropped when the socket is closed (a closed connection's message list is
untouched by a publish); the initial history send on connect, however, is
performed unconditionally, whatever the state of the arriving socket. -/
theorem claim_C4_guarded_live_sends :
    (∀ (E : Type) (s : SystemState E) (e : E) (c : Nat),
      (s.conns c).isOpen = false →
      ((emitDashboard s e).conns c).received = (s.conns c).received) ∧
    (∀ (E : Type) (s : SystemState E) (b : Bool),
      ((onConnect s b).conns s.nextId).received =
        [Msg.history (getRecentEvents s)]) := by
  constructor
  · intro E s e c hc
    show (notifyAll e s.conns s.handlers c).received = _
    rw [notifyAll_closed e s.handlers s.conns c hc]
  · intro E s b
    show ((if s.nextId = s.nextId
        then (⟨b, [Msg.history (getRecentEvents s)]⟩ : Conn E)
        else s.conns s.nextId)).received = _
    rw [if_pos rfl]

/-- Witness for the amended C4 at concrete inputs: a publish leaves a
closed connection's messages untouched, and a connect sends the history
message to the new connection. -/
theorem claim_C4_guarded_live_sends_witness :
    ((emitDashboard (run (initState Nat) [Act.connect false]) 7).conns 0).received =
      ((run (initState Nat) [Act.connect false]).conns 0).received ∧
    ((onConnect (initState Nat) true).conns (initState Nat).nextId).received =
      [Msg.history (getRecentEvents (initState Nat))] :=
  ⟨claim_C4_guarded_live_sends.1 Nat (run (initState Nat) [Act.connect false]) 7 0
      (by decide),
    claim_C4_guarded_live_sends.2 Nat (initState Nat) true⟩

/-! ## Aliasing: the snapshot is an independent copy (claim C5)

The pure model above represents arrays by their contents, which cannot
express aliasing. This refined model makes the JS heap explicit for the
one operation aliasing matters for: `this.recentEvents` is a reference
into a store of array objects, `getRecentEvents` evaluates
`[...this.recentEvents]` — allocate a fresh array object holding a copy
of the buffer's current contents — and returns the fresh reference, and
the push/shift of `emitDashboard` mutates the bus's array in place. -/

/-- The dashboard bus with its heap of JS array objects: `arrays` maps an
array object id to its contents, `bufId` is the reference held in
`this.recentEvents`. -/
structure BusHeap (E : Type) where
  arrays : List (List E)
  bufId : Nat

/-- Read the contents of array object `i`. -/
def lookupArr {E : Type} (b : BusHeap E) (i : Nat) : List E :=
  b.arrays.getD i []

/-- Overwrite the contents of array object `i` (a mutation of that array
object, e.g. performed by whoever holds a reference to it). -/
def writeArr {E : Type} (b : BusHeap E) (i : Nat) (l : List E) : BusHeap E :=
  { b with arrays := b.arrays.set i l }

/-- `getRecentEvents()` on the heap model: allocate a fresh array object
holding a copy of the buffer's contents and return its reference. -/
def getRecentEventsH {E : Type} (b : BusHeap E) : Nat × BusHeap E :=
  (b.arrays.length, { b with arrays := b.arrays ++ [lookupArr b b.bufId] })

/-- The buffer update of `emitDashboard` on the heap model: push, and
shift when over capacity, in place on the array `this.recentEvents`
points to. -/
def emitDashboardH {E : Type} (b : BusHeap E) (e : E) : BusHeap E :=
  writeArr b b.bufId (emitBuffer maxEvents (lookupArr b b.bufId) e)

theorem getD_set_ne {E : Type} (l : List (List E)) (i j : Nat) (v : List E)
    (h : i ≠ j) : (l.set i v).getD j [] = l.getD j [] := by
  simp [List.getD, List.getElem?_set_ne h]

/-- C5: `getRecentEvents` leaves the bus state unchanged (same buffer
reference, same buffer contents); the returned reference is a different
array object, so mutating the returned array never changes the retained
buffer; and the snapshot holds the buffer contents at snapshot time,
which a later publish never changes retroactively. -/
theorem claim_C5_snapshot_independent :
    ∀ (E : Type) (b : BusHeap E), b.bufId < b.arrays.length →
      ((getRecentEventsH b).2.bufId = b.bufId ∧
        lookupArr (getRecentEventsH b).2 b.bufId = lookupArr b b.bufId) ∧
      ((getRecentEventsH b).1 ≠ b.bufId ∧
        ∀ l : List E,
          lookupArr (writeArr (getRecentEventsH b).2 (getRecentEventsH b).1 l)
            b.bufId = lookupArr b b.bufId) ∧
      (lookupArr (getRecentEventsH b).2 (getRecentEventsH b).1 =
          lookupArr b b.bufId ∧
        ∀ e : E,
          lookupArr (emitDashboardH (getRecentEventsH b).2 e)
            (getRecentEventsH b).1 = lookupArr b b.bufId) := by
  intro E b hb
  have hkeep : lookupArr (getRecentEventsH b).2 b.bufId = lookupArr b b.bufId := by
    show (b.arrays ++ [lookupArr b b.bufId]).getD b.bufId [] = b.arrays.getD b.bufId []
    exact List.getD_append b.arrays [lookupArr b b.bufId] [] b.bufId hb
  have hsnap : lookupArr (getRecentEventsH b).2 (getRecentEventsH b).1 =
      lookupArr b b.bufId := by
    show (b.arrays ++ [lookupArr b b.bufId]).getD b.arrays.length [] = _
    simp [List.getD, List.getElem?_append_right]
  refine ⟨⟨rfl, hkeep⟩, ⟨by show b.arrays.length ≠ b.bufId; omega, ?_⟩, hsnap, ?_⟩
  · intro l
    show ((b.arrays ++ [lookupArr b b.bufId]).set b.arrays.length l).getD b.bufId [] =
      b.arrays.getD b.bufId []
    rw [getD_set_ne (b.arrays ++ [lookupArr b b.bufId]) b.arrays.length b.bufId l
      (by omega)]
    exact hkeep
  · intro e
    show ((getRecentEventsH b).2.arrays.set b.bufId
        (emitBuffer maxEvents (lookupArr (getRecentEventsH b).2 b.bufId) e)).getD
          b.arrays.length [] = _
    rw [getD_set_ne (getRecentEventsH b).2.arrays b.bufId b.arrays.length _ (by omega)]
    exact hsnap

/-- Witness for C5 at a concrete heap: one buffer `[1, 2]`; the call
leaves it unchanged, overwriting the snapshot object with `[9]` leaves it
unchanged, and publishing `7` after the call leaves the snapshot object
holding `[1, 2]`. -/
theorem claim_C5_snapshot_independent_witness :
    lookupArr (getRecentEventsH (⟨[[1, 2]], 0⟩ : BusHeap Nat)).2 0 =
      lookupArr (⟨[[1, 2]], 0⟩ : BusHeap Nat) 0 ∧
    lookupArr (writeArr (getRecentEventsH (⟨[[1, 2]], 0⟩ : BusHeap Nat)).2
        (getRecentEventsH (⟨[[1, 2]], 0⟩ : BusHeap Nat)).1 [9]) 0 =
      lookupArr (⟨[[1, 2]], 0⟩ : BusHeap Nat) 0 ∧
    lookupArr (emitDashboardH (getRecentEventsH (⟨[[1, 2]], 0⟩ : BusHeap Nat)).2 7)
        (getRecentEventsH (⟨[[1, 2]], 0⟩ : BusHeap Nat)).1 =
      lookupArr (⟨[[1, 2]], 0⟩ : BusHeap Nat) 0 :=
  ⟨(claim_C5_snapshot_independent Nat ⟨[[1, 2]], 0⟩ (by decide)).1.2,
    (claim_C5_snapshot_independent Nat ⟨[[1, 2]], 0⟩ (by decide)).2.1.2 [9],
    (claim_C5_snapshot_independent Nat ⟨[[1, 2]], 0⟩ (by decide)).2.2.2 7⟩

/-! ## Claim C3: the throw behaviour of publish

The `DashboardEvent` interface of dashboard-events.ts, with its opaque
`data: unknown` payload, and a second rendition of the publish path in
which every JS throw channel is an explicit `Except`: Node's `emit` runs
the listeners synchronously and a listener's exception propagates to the
caller of `emit`, so publish is non-throwing only when no registered
listener throws. The registered listener serializes its frame with
`JSON.stringify`, which throws on payloads it cannot serialize; `BigInt`
is such a payload and is representable below, so the throw path is part
of the model. (Circular object graphs and objects with a throwing
`toJSON` method are further such payloads; as cyclic or behavioural
values they have no inductive representation, but they throw through
exactly the serialization channel that `bigint` exercises.) -/

/-- The closed set of event kinds of dashboard-events.ts. -/
inductive EventType where
  | container_spawn
  | container_complete
  | agent_event
  | message_received
  | message_sent

/-- A JS value a producer can put in the opaque `data` field. Besides the
JSON-serializable values it includes `bigint`, which `data: unknown`
admits and on which `JSON.stringify` throws a `TypeError`. -/
inductive JSValue : Type where
  | null : JSValue
  | bool (b : Bool) : JSValue
  | num (n : Int) : JSValue
  | bigint (n : Int) : JSValue
  | str (s : List Char) : JSValue
  | arr (elems : List JSValue) : JSValue
  | obj (fields : List (List Char × JSValue)) : JSValue

/-- The `DashboardEvent` interface: required `type` and `timestamp`,
optional workspace/chat identifiers, and the opaque payload `data` that
the bus never inspects. -/
structure DashboardEvent where
  type : EventType
  timestamp : List Char
  groupFolder : Option (List Char)
  chatJid : Option (List Char)
  data : JSValue

/-- JSON string escaping for the two characters JSON must escape in the
payloads this model produces. -/
def escapeChar (c : Char) : List Char :=
  if c = '"' then ['\\', '"'] else if c = '\\' then ['\\', '\\'] else [c]

/-- A JSON string literal. -/
def quoteJS (s : List Char) : List Char :=
  '"' :: s.foldr (fun c acc => escapeChar c ++ acc) ['"']

/-- A JS exception. -/
inductive JsError where
  | typeError (msg : List Char)

mutual

/-- `JSON.stringify` with its throw channel explicit: serialization
fails exactly when the value contains something `JSON.stringify` refuses
to serialize (here: a `bigint`), and then the `TypeError` propagates to
whoever called it. The opening and closing braces of an object are
written via their code points (123, 125). -/
def stringifyE : JSValue → Except JsError (List Char)
  | .null => Except.ok "null".data
  | .bool true => Except.ok "true".data
  | .bool false => Except.ok "false".data
  | .num n => Except.ok (intToChars n)
  | .bigint _ =>
    Except.error (JsError.typeError "Do not know how to serialize a BigInt".data)
  | .str s => Except.ok (quoteJS s)
  | .arr elems => do
    let body ← stringifyArrE elems
    Except.ok ('[' :: (body ++ [']']))
  | .obj fields => do
    let body ← stringifyObjE fields
    Except.ok (Char.ofNat 123 :: (body ++ [Char.ofNat 125]))

/-- Comma-separated serialization of an array's elements, failing as
soon as one element fails. -/
def stringifyArrE : List JSValue → Except JsError (List Char)
  | [] => Except.ok []
  | [v] => stringifyE v
  | v :: rest => do
    let h ← stringifyE v
    let t ← stringifyArrE rest
    Except.ok (h ++ ',' :: t)

/-- Comma-separated serialization of an object's key/value fields,
failing as soon as one value fails. -/
def stringifyObjE : List (List Char × JSValue) → Except JsError (List Char)
  | [] => Except.ok []
  | [(k, v)] => do
    let h ← stringifyE v
    Except.ok (quoteJS k ++ ':' :: h)
  | (k, v) :: rest => do
    let h ← stringifyE v
    let t ← stringifyObjE rest
    Except.ok (quoteJS k ++ ':' :: h ++ ',' :: t)

end

/-- The string literal dashboard-events.ts uses for each event kind. -/
def typeName : EventType → List Char
  | .container_spawn => "container_spawn".data
  | .container_complete => "container_complete".data
  | .agent_event => "agent_event".data
  | .message_received => "message_received".data
  | .message_sent => "message_sent".data

/-- A `DashboardEvent` as the JSON value `JSON.stringify` sees: required
fields always present, optional fields omitted when `undefined`. -/
def eventToJSValue (e : DashboardEvent) : JSValue :=
  JSValue.obj
    ([("type".data, JSValue.str (typeName e.type)),
      ("timestamp".data, JSValue.str e.timestamp)]
      ++ (match e.groupFolder with
          | none => []
          | some g => [("groupFolder".data, JSValue.str g)])
      ++ (match e.chatJid with
          | none => []
          | some j => [("chatJid".data, JSValue.str j)])
      ++ [("data".data, e.data)])

/-- The live frame `{ type: 'event', event }` the handler serializes. -/
def eventFrame (e : DashboardEvent) : JSValue :=
  JSValue.obj
    [("type".data, JSValue.str "event".data),
      ("event".data, eventToJSValue e)]

/-- The registered subscriber callback of dashboard-server.ts with the
throw channel explicit: check `readyState`, serialize the frame, send.
`ws.send` does not throw synchronously (send failures surface on the
socket's error event), so serialization is the handler's only throw
site — and it does throw when the payload is unserializable. -/
def handlerSendE (e : DashboardEvent) (cn : Conn DashboardEvent) :
    Except JsError (Conn DashboardEvent) :=
  if cn.isOpen then do
    let _text ← stringifyE (eventFrame e)
    Except.ok { cn with received := cn.received ++ [Msg.event e] }
  else Except.ok cn

/-- Node `EventEmitter.emit` with the throw channel explicit: listeners
run synchronously in registration order, and a listener's exception
aborts the emit and propagates. -/
def notifyAllE (e : DashboardEvent) :
    (Nat → Conn DashboardEvent) → List Nat →
      Except JsError (Nat → Conn DashboardEvent)
  | conns, [] => Except.ok conns
  | conns, h :: hs => do
    let ch ← handlerSendE e (conns h)
    notifyAllE e (fun i => if i = h then ch else conns i) hs

/-- `emitDashboard` with the throw channel explicit: the push/shift
buffer update cannot throw, then the emit runs; an exception thrown by a
listener propagates out of `emitDashboard` to the producer. -/
def emitDashboardE (s : SystemState DashboardEvent) (e : DashboardEvent) :
    Except JsError (SystemState DashboardEvent) := do
  let conns2 ← notifyAllE e s.conns s.handlers
  Except.ok { s with
    recentEvents := emitBuffer maxEvents s.recentEvents e
    conns := conns2
    invocations := s.invocations ++ s.handlers.map (fun h => (h, e)) }

/-! ### When serialization succeeds, and when no listener is open,
publish returns normally -/

theorem isOk_stringifyE_obj (L : List (List Char × JSValue)) :
    (stringifyE (JSValue.obj L)).isOk = (stringifyObjE L).isOk := by
  show ((stringifyObjE L) >>= fun body =>
    Except.ok (Char.ofNat 123 :: (body ++ [Char.ofNat 125]))).isOk = _
  cases stringifyObjE L with
  | ok t => rfl
  | error err => rfl

theorem isOk_objE_single (k : List Char) (v : JSValue) :
    (stringifyObjE [(k, v)]).isOk = (stringifyE v).isOk := by
  show ((stringifyE v) >>= fun h => Except.ok (quoteJS k ++ ':' :: h)).isOk = _
  cases stringifyE v with
  | ok t => rfl
  | error err => rfl

theorem isOk_objE_cons_str (k s : List Char) (p : List Char × JSValue)
    (rest : List (List Char × JSValue)) :
    (stringifyObjE ((k, JSValue.str s) :: p :: rest)).isOk =
      (stringifyObjE (p :: rest)).isOk := by
  show ((stringifyE (JSValue.str s)) >>= fun h =>
    (stringifyObjE (p :: rest)) >>= fun t =>
      Except.ok (quoteJS k ++ ':' :: h ++ ',' :: t)).isOk = _
  cases stringifyObjE (p :: rest) with
  | ok t => rfl
  | error err => rfl

theorem isOk_frame (e : DashboardEvent) :
    (stringifyE (eventFrame e)).isOk = (stringifyE e.data).isOk := by
  obtain ⟨ty, ts, gf, cj, d⟩ := e
  have h1 : (stringifyE (eventFrame ⟨ty, ts, gf, cj, d⟩)).isOk =
      (stringifyE (eventToJSValue ⟨ty, ts, gf, cj, d⟩)).isOk := by
    show (stringifyE (JSValue.obj [("type".data, JSValue.str "event".data),
      ("event".data, eventToJSValue ⟨ty, ts, gf, cj, d⟩)])).isOk = _
    rw [isOk_stringifyE_obj, isOk_objE_cons_str, isOk_objE_single]
  rw [h1]
  cases gf with
  | none =>
    cases cj with
    | none =>
      show (stringifyE (JSValue.obj
        [("type".data, JSValue.str (typeName ty)),
          ("timestamp".data, JSValue.str ts),
          ("data".data, d)])).isOk = (stringifyE d).isOk
      rw [isOk_stringifyE_obj, isOk_objE_cons_str, isOk_objE_cons_str,
        isOk_objE_single]
    | some j =>
      show (stringifyE (JSValue.obj
        [("type".data, JSValue.str (typeName ty)),
          ("timestamp".data, JSValue.str ts),
          ("chatJid".data, JSValue.str j),
          ("data".data, d)])).isOk = (stringifyE d).isOk
      rw [isOk_stringifyE_obj, isOk_objE_cons_str, isOk_objE_cons_str,
        isOk_objE_cons_str, isOk_objE_single]
  | some g =>
    cases cj with
    | none =>
      show (stringifyE (JSValue.obj
        [("type".data, JSValue.str (typeName ty)),
          ("timestamp".data, JSValue.str ts),
          ("groupFolder".data, JSValue.str g),
          ("data".data, d)])).isOk = (stringifyE d).isOk
      rw [isOk_stringifyE_obj, isOk_objE_cons_str, isOk_objE_cons_str,
        isOk_objE_cons_str, isOk_objE_single]
    | some j =>
      show (stringifyE (JSValue.obj
        [("type".data, JSValue.str (typeName ty)),
          ("timestamp".data, JSValue.str ts),
          ("groupFolder".data, JSValue.str g),
          ("chatJid".data, JSValue.str j),
          ("data".data, d)])).isOk = (stringifyE d).isOk
      rw [isOk_stringifyE_obj, isOk_objE_cons_str, isOk_objE_cons_str,
        isOk_objE_cons_str, isOk_objE_cons_str, isOk_objE_single]

theorem handlerSendE_ok_of_frame (e : DashboardEvent)
    (hfr : (stringifyE (eventFrame e)).isOk = true)
    (cn : Conn DashboardEvent) :
    handlerSendE e cn = Except.ok
      (if cn.isOpen then { cn with received := cn.received ++ [Msg.event e] }
        else cn) := by
  unfold handlerSendE
  by_cases h : cn.isOpen
  · rw [if_pos h, if_pos h]
    cases hst : stringifyE (eventFrame e) with
    | ok t => rfl
    | error err =>
      rw [hst] at hfr
      exact Bool.noConfusion hfr
  · rw [if_neg h, if_neg h]

theorem handlerSendE_of_closed (e : DashboardEvent) (cn : Conn DashboardEvent)
    (h : cn.isOpen = false) : handlerSendE e cn = Except.ok cn := by
  unfold handlerSendE
  rw [if_neg (by simp [h])]

theorem notifyAllE_ok_of_frame (e : DashboardEvent)
    (hfr : (stringifyE (eventFrame e)).isOk = true) (hs : List Nat) :
    ∀ conns : Nat → Conn DashboardEvent,
      notifyAllE e conns hs = Except.ok (notifyAll e conns hs) := by
  induction hs with
  | nil => intro conns; rfl
  | cons h hs ih =>
    intro conns
    show handlerSendE e (conns h) >>= (fun ch =>
      notifyAllE e (fun i => if i = h then ch else conns i) hs) = _
    rw [handlerSendE_ok_of_frame e hfr]
    exact ih (notifyOne e conns h)

theorem notifyAllE_ok_of_closed (e : DashboardEvent) (hs : List Nat) :
    ∀ conns : Nat → Conn DashboardEvent,
      (∀ h ∈ hs, (conns h).isOpen = false) →
      notifyAllE e conns hs = Except.ok (notifyAll e conns hs) := by
  induction hs with
  | nil => intro conns _; rfl
  | cons h hs ih =>
    intro conns hcl
    have hh : (conns h).isOpen = false := hcl h (List.mem_cons_self h hs)
    show handlerSendE e (conns h) >>= (fun ch =>
      notifyAllE e (fun i => if i = h then ch else conns i) hs) = _
    rw [handlerSendE_of_closed e (conns h) hh]
    show notifyAllE e (fun i => if i = h then conns h else conns i) hs = _
    have hfun : (fun i => if i = h then conns h else conns i) =
        notifyOne e conns h := by
      funext i
      unfold notifyOne
      by_cases hih : i = h
      · simp [hih, hh]
      · simp [hih]
    rw [hfun]
    exact ih (notifyOne e conns h)
      (fun h2 hm => by
        rw [notifyOne_isOpen]
        exact hcl h2 (List.mem_cons_of_mem h hm))

/-- C3 refuted as stated: with one open viewer connection registered, a
producer publishing an event whose opaque payload is a `BigInt` — a
payload `data: unknown` admits — makes the handler's `JSON.stringify`
throw inside Node's `emit`, and the exception propagates out of the
publish to the producer instead of publish returning normally. -/
theorem claim_C3_counterexample :
    emitDashboardE (run (initState DashboardEvent) [Act.connect true])
        ⟨EventType.agent_event, "t".data, none, none, JSValue.bigint 1⟩ =
      Except.error
        (JsError.typeError "Do not know how to serialize a BigInt".data) ∧
    emitDashboardE (run (initState DashboardEvent) [Act.connect true])
        ⟨EventType.agent_event, "t".data, none, none, JSValue.bigint 1⟩ ≠
      Except.ok (emitDashboard
        (run (initState DashboardEvent) [Act.connect true])
        ⟨EventType.agent_event, "t".data, none, none, JSValue.bigint 1⟩) := by
  refine ⟨rfl, fun h => ?_⟩
  rw [show emitDashboardE (run (initState DashboardEvent) [Act.connect true])
      ⟨EventType.agent_event, "t".data, none, none, JSValue.bigint 1⟩ =
    Except.error
      (JsError.typeError "Do not know how to serialize a BigInt".data)
    from rfl] at h
  exact Except.noConfusion h

/-- C3 amended: publish never throws for serializable payloads: for
every bus state and every event whose `data` payload `JSON.stringify`
can serialize, the explicit-throw-channel publish returns `ok` with
exactly the state the pure publish produces; and whatever the payload,
publish also returns `ok` whenever no registered listener's socket is
open, because the `readyState` guard runs before serialization. -/
theorem claim_C3_publish_throw_condition :
    (∀ (s : SystemState DashboardEvent) (e : DashboardEvent),
      (stringifyE e.data).isOk = true →
      emitDashboardE s e = Except.ok (emitDashboard s e)) ∧
    (∀ (s : SystemState DashboardEvent) (e : DashboardEvent),
      (∀ h ∈ s.handlers, (s.conns h).isOpen = false) →
      emitDashboardE s e = Except.ok (emitDashboard s e)) := by
  constructor
  · intro s e hd
    have hfr : (stringifyE (eventFrame e)).isOk = true := by
      rw [isOk_frame]
      exact hd
    show notifyAllE e s.conns s.handlers >>= _ = _
    rw [notifyAllE_ok_of_frame e hfr s.handlers s.conns]
    rfl
  · intro s e hcl
    show notifyAllE e s.conns s.handlers >>= _ = _
    rw [notifyAllE_ok_of_closed e s.handlers s.conns hcl]
    rfl

/-- Witness for the amended C3 at concrete inputs: with an open viewer,
publishing an event with a serializable (`null`) payload returns `ok`;
with the only viewer's socket closed, publish returns `ok` even for a
`BigInt` payload. -/
theorem claim_C3_publish_throw_condition_witness :
    emitDashboardE (run (initState DashboardEvent) [Act.connect true])
        ⟨EventType.message_received, "t".data, none, none, JSValue.null⟩ =
      Except.ok (emitDashboard
        (run (initState DashboardEvent) [Act.connect true])
        ⟨EventType.message_received, "t".data, none, none, JSValue.null⟩) ∧
    emitDashboardE (run (initState DashboardEvent) [Act.connect false])
        ⟨EventType.message_received, "t".data, none, none, JSValue.bigint 1⟩ =
      Except.ok (emitDashboard
        (run (initState DashboardEvent) [Act.connect false])
        ⟨EventType.message_received, "t".data, none, none, JSValue.bigint 1⟩) :=
  ⟨claim_C3_publish_throw_condition.1
      (run (initState DashboardEvent) [Act.connect true])
      ⟨EventType.message_received, "t".data, none, none, JSValue.null⟩
      (by decide),
    claim_C3_publish_throw_condition.2
      (run (initState DashboardEvent) [Act.connect false])
      ⟨EventType.message_received, "t".data, none, none, JSValue.bigint 1⟩
      (by decide)⟩

end Nanoclaw
